import Mathlib

/-!
Verification development for the weather MCP client
(`weather-mcp-client/client.py`).

The embedding models the tool-calling orchestration loop of
`MCPClient.process_query` together with its helpers `_schema_to_dict`
and `_flatten_tool_content`.  The two external collaborators are
represented explicitly:

* the Completion Endpoint is a script, a list of `TurnResponse` values,
  one per completion request the loop issues (the loop consumes them in
  order; an exhausted script models an endpoint that would keep being
  asked — the loop has no turn cap);
* the Tool Session is a function from tool name and parsed arguments to
  either a returned result (`Except.ok`, carrying the optional content
  list of the result object) or a raised transport error (`Except.error`);
* the JSON argument decoder (`json.loads`) is a parameter
  `parse : String → Except String JVal`; concrete stand-ins are defined
  below for the closed test instances.

Machine-level dynamics (event loop scheduling, logging, I O) are
irrelevant to the claims and are not modelled; the loop is single
threaded and strictly sequential exactly as in the source.
-/

/-- JSON-like values, the universe used for parsed tool arguments and for
the plain dictionaries produced by `_schema_to_dict`. -/
inductive JVal where
  | null
  | jbool (b : Bool)
  | jnum (n : Int)
  | jstr (s : String)
  | jarr (xs : List JVal)
  | jobj (fields : List (String × JVal))

/-- Model of the Python `str.strip()` method used by the client: drop
whitespace from both ends of the string. -/
def pyStrip (s : String) : String :=
  String.mk (((s.data.dropWhile Char.isWhitespace).reverse.dropWhile Char.isWhitespace).reverse)

/-- Model of `key.startswith("_")` on attribute names. -/
def startsWithUnderscore (s : String) : Bool :=
  match s.data with
  | [] => false
  | c :: _ => c = '_'

mutual

/-- Model of the Python `repr`/`str` rendering of a parsed JSON value, as
interpolated into the summary string `"[Tool <name> called with args <args>]"`. -/
def pyReprJ : JVal → String
  | .null => "None"
  | .jbool true => "True"
  | .jbool false => "False"
  | .jnum n => toString n
  | .jstr s => "\x27" ++ s ++ "\x27"
  | .jarr xs => "[" ++ pyReprList xs ++ "]"
  | .jobj fs => "\x7b" ++ pyReprFields fs ++ "\x7d"

/-- Comma-joined rendering of a Python list body. -/
def pyReprList : List JVal → String
  | [] => ""
  | [x] => pyReprJ x
  | x :: xs => pyReprJ x ++ ", " ++ pyReprList xs

/-- Comma-joined rendering of a Python dict body. -/
def pyReprFields : List (String × JVal) → String
  | [] => ""
  | [(k, v)] => "\x27" ++ k ++ "\x27: " ++ pyReprJ v
  | (k, v) :: xs => "\x27" ++ k ++ "\x27: " ++ pyReprJ v ++ ", " ++ pyReprFields xs

end

/-- Shapes an MCP tool input schema object can take when it reaches
`_schema_to_dict` (client.py lines 21 to 35): absent (`None`), already a
plain dict, an object exposing `model_dump()`, an object exposing
`.dict()`, a plain object whose public attributes are read off
`vars(schema)`, or something with none of these (no `__dict__`). -/
inductive InputSchema where
  | noneSchema
  | dictSchema (d : List (String × JVal))
  | modelDumpSchema (d : List (String × JVal))
  | dictMethodSchema (d : List (String × JVal))
  | attrsSchema (fields : List (String × JVal))
  | otherSchema

/-- Empty-parameter fallback dict produced for unreadable schemas. -/
def emptyObjectSchema : JVal :=
  JVal.jobj [("type", JVal.jstr "object"), ("properties", JVal.jobj [])]

/-- Embedding of `_schema_to_dict` (client.py lines 21 to 35): convert MCP
tool input schema objects to plain dictionaries. -/
def _schema_to_dict : InputSchema → JVal
  | .noneSchema => emptyObjectSchema
  | .dictSchema d => JVal.jobj d
  | .modelDumpSchema d => JVal.jobj d
  | .dictMethodSchema d => JVal.jobj d
  | .attrsSchema fields => JVal.jobj (fields.filter (fun kv => !startsWithUnderscore kv.1))
  | .otherSchema => emptyObjectSchema

/-- Structured content item of an MCP tool result, as consumed by
`_flatten_tool_content`: an item whose resolved `type` is `"text"`
(carrying its optional `text` attribute) or any other item (carrying the
string `str(item)` it is rendered to). -/
inductive ContentItem where
  | textItem (text : Option String)
  | otherItem (rendered : String)

/-- Loop body of `_flatten_tool_content` (client.py lines 44 to 56): a
text item contributes its text when present and non-empty, any other
item contributes its rendering. -/
def flattenStep (acc : List String) (item : ContentItem) : List String :=
  match item with
  | .textItem (some t) => if t = "" then acc else acc ++ [t]
  | .textItem none => acc
  | .otherItem s => acc ++ [s]

/-- Embedding of `_flatten_tool_content` (client.py lines 38 to 58): turn
MCP tool result content into a printable string. -/
def _flatten_tool_content (content : Option (List ContentItem)) : String :=
  match content with
  | none => ""
  | some [] => ""
  | some items =>
    let parts := items.foldl flattenStep ([] : List String)
    pyStrip (String.intercalate "\n" (parts.filter (fun p => p ≠ "")))

/-- Tool descriptor as listed by the Tool Session: name, optional
description and input schema. -/
structure ToolDescriptor where
  name : String
  description : Option String
  inputSchema : InputSchema

/-- Function declaration payload sent to the completion endpoint:
`{name, description, parameters}`. -/
structure FunctionDecl where
  name : String
  description : String
  parameters : JVal

/-- Tool declaration entry `{"type": "function", "function": {...}}`. -/
structure ToolDecl where
  declKind : String
  function : FunctionDecl

/-- Embedding of the tool catalog adapter (client.py lines 148 to 158):
present each MCP tool using the OpenAI tool/function schema. -/
def available_tools (ts : List ToolDescriptor) : List ToolDecl :=
  ts.map (fun t =>
    { declKind := "function",
      function :=
        { name := t.name,
          description := t.description.getD "",
          parameters := _schema_to_dict t.inputSchema } })

/-- One tool call request of an assistant message: opaque id, call type,
function name and raw JSON arguments string (absent models `None`). -/
structure ToolCall where
  id : String
  ctype : String
  name : String
  arguments : Option String
  deriving DecidableEq

/-- One completion response: optional text content and optional tool call
list (absent models `None`). -/
structure TurnResponse where
  content : Option String
  toolCalls : Option (List ToolCall)

/-- Transcript entry: user message, assistant message with its recorded
tool call metadata, or tool result message
`{"role": "tool", "tool_call_id": ..., "name": ..., "content": ...}`. -/
inductive Msg where
  | user (content : String)
  | assistant (content : String) (toolCalls : List ToolCall)
  | tool (tool_call_id : String) (name : String) (content : String)
  deriving DecidableEq

/-- Tool call id carried by a transcript entry, when it is a tool result
message. -/
def Msg.callId : Msg → Option String
  | .tool i _ _ => some i
  | _ => none

/-- Type of the Tool Session call operation: tool name and parsed
arguments to either a returned result (its optional content list) or a
raised transport error. -/
abbrev SessionCall := String → JVal → Except String (Option (List ContentItem))

/-- Type of the JSON argument decoder standing for `json.loads`. -/
abbrev ArgDecoder := String → Except String JVal

/-- Record of Tool Session invocations: name and parsed arguments, in
call order. -/
abbrev Trace := List (String × JVal)

/-- Effective raw arguments string: `tool_call.function.arguments or "{}"`
(client.py line 230), so both `None` and the empty string fall back to
the empty JSON object text. -/
def effectiveArgs (c : ToolCall) : String :=
  match c.arguments with
  | none => "{}"
  | some s => if s = "" then "{}" else s

/-- Outcome of executing the tool calls of one turn (client.py lines 219
to 255): all calls executed, a `ValueError` raised on argument parsing
(escaping the loop), or a transport exception raised by the session call
(escaping the loop).  Each constructor carries the transcript, output
buffer and invocation trace at that point. -/
inductive CallsStep where
  | ok (msgs : List Msg) (chunks : List String) (trace : Trace)
  | parseFail (emsg : String) (msgs : List Msg) (chunks : List String) (trace : Trace)
  | exn (emsg : String) (msgs : List Msg) (chunks : List String) (trace : Trace)

/-- Embedding of the per-turn tool execution loop (client.py lines 219 to
255): for each call in order, decode the arguments (raising `ValueError`
on failure), invoke the session, flatten the result, extend the output
buffer with the summary and the flattened output when non-empty, and
append the tool result message. -/
def runCalls (parse : ArgDecoder) (ct : SessionCall) :
    List ToolCall → List Msg → List String → Trace → CallsStep
  | [], msgs, chunks, trace => .ok msgs chunks trace
  | c :: cs, msgs, chunks, trace =>
    match parse (effectiveArgs c) with
    | .error e =>
      .parseFail ("Failed to parse arguments for tool " ++ c.name ++ ": " ++ e) msgs chunks trace
    | .ok args =>
      match ct c.name args with
      | .error e => .exn e msgs chunks trace
      | .ok result =>
        let tool_output := _flatten_tool_content result
        let summary := "[Tool " ++ c.name ++ " called with args " ++ pyReprJ args ++ "]"
        let chunks := (chunks ++ [summary]) ++ (if tool_output = "" then [] else [tool_output])
        let msgs := msgs ++
          [Msg.tool c.id c.name (if tool_output = "" then "(no output)" else tool_output)]
        let trace := trace ++ [(c.name, args)]
        runCalls parse ct cs msgs chunks trace

/-- Result of driving the turn loop: finished normally (turn produced no
tool calls), a `ValueError` from argument parsing escaped, a transport
exception from a session call escaped, or the response script ran out
while the loop was about to issue yet another completion request.  The
`requests` count is the number of completion requests issued. -/
inductive LoopResult where
  | finished (chunks : List String) (msgs : List Msg) (trace : Trace) (requests : Nat)
  | valueError (emsg : String) (msgs : List Msg) (trace : Trace)
  | toolRaise (emsg : String) (msgs : List Msg) (trace : Trace)
  | exhausted (msgs : List Msg) (trace : Trace) (requests : Nat)

/-- Embedding of the turn loop of `process_query` (client.py lines 166 to
257): each consumed response models one completion request; trimmed
non-empty content joins the output buffer; an empty tool call list ends
the loop; otherwise the assistant message is recorded and every tool
call executed in order before the next request. -/
def runLoop (parse : ArgDecoder) (ct : SessionCall) :
    List TurnResponse → List Msg → List String → Trace → Nat → LoopResult
  | [], msgs, _chunks, trace, n => .exhausted msgs trace n
  | r :: rest, msgs, chunks, trace, n =>
    let content_text := r.content.getD ""
    let chunks := if pyStrip content_text = "" then chunks else chunks ++ [pyStrip content_text]
    let tool_calls := r.toolCalls.getD []
    if tool_calls.isEmpty then
      .finished chunks msgs trace (n + 1)
    else
      let msgs := msgs ++ [Msg.assistant content_text tool_calls]
      match runCalls parse ct tool_calls msgs chunks trace with
      | .parseFail e m _c t => .valueError e m t
      | .exn e m _c t => .toolRaise e m t
      | .ok m c t => runLoop parse ct rest m c t (n + 1)

/-- Embedding of `process_query` (client.py lines 135 to 262) over a
response script: the transcript starts with the single user message and
the loop is driven until it finishes, raises or exhausts the script. -/
def process_query (query : String) (responses : List TurnResponse)
    (parse : ArgDecoder) (ct : SessionCall) : LoopResult :=
  runLoop parse ct responses [Msg.user query] [] [] 0

/-- Final user-facing string (client.py line 260): newline-join of the
non-empty output buffer entries. -/
def result_text (chunks : List String) : String :=
  String.intercalate "\n" (chunks.filter (fun c => c ≠ ""))

/-- Parsed arguments a call decodes to, read off the decoder (meaningful
when decoding succeeds). -/
def parsedArgsOf (parse : ArgDecoder) (c : ToolCall) : JVal :=
  match parse (effectiveArgs c) with
  | .ok v => v
  | .error _ => JVal.null

/-- Result content the session returns for a call (meaningful when the
call succeeds). -/
def toolResultOf (parse : ArgDecoder) (ct : SessionCall) (c : ToolCall) :
    Option (List ContentItem) :=
  match ct c.name (parsedArgsOf parse c) with
  | .ok r => r
  | .error _ => none

/-- Flattened output text of a successful call. -/
def toolOutputOf (parse : ArgDecoder) (ct : SessionCall) (c : ToolCall) : String :=
  _flatten_tool_content (toolResultOf parse ct c)

/-- Tool result message a successful call appends to the transcript. -/
def toolMsgOf (parse : ArgDecoder) (ct : SessionCall) (c : ToolCall) : Msg :=
  Msg.tool c.id c.name
    (if toolOutputOf parse ct c = "" then "(no output)" else toolOutputOf parse ct c)

/-- Human-readable summary line a call appends to the output buffer. -/
def summaryOf (parse : ArgDecoder) (c : ToolCall) : String :=
  "[Tool " ++ c.name ++ " called with args " ++ pyReprJ (parsedArgsOf parse c) ++ "]"

/-- Output buffer entries a successful call appends: the summary, then
the flattened output when non-empty. -/
def chunksOfCall (parse : ArgDecoder) (ct : SessionCall) (c : ToolCall) : List String :=
  [summaryOf parse c] ++
    (if toolOutputOf parse ct c = "" then [] else [toolOutputOf parse ct c])

/-- Session invocation a call performs: tool name with parsed arguments. -/
def invocOf (parse : ArgDecoder) (c : ToolCall) : String × JVal :=
  (c.name, parsedArgsOf parse c)

/-- A call succeeds when its arguments decode and the session call
returns instead of raising. -/
def callSucceeds (parse : ArgDecoder) (ct : SessionCall) (c : ToolCall) : Prop :=
  (∃ v, parse (effectiveArgs c) = Except.ok v) ∧
  (∃ r, ct c.name (parsedArgsOf parse c) = Except.ok r)

/-- String a content item contributes before empty entries are filtered:
the text of a text item, the rendering of any other item. -/
def contentPartStr : ContentItem → String
  | .textItem (some t) => t
  | .textItem none => ""
  | .otherItem s => s

/-- Dictionary declaring itself an object schema: its `"type"` entry is
the string `"object"`. -/
def hasTypeObjectEntry (d : List (String × JVal)) : Bool :=
  match d.lookup "type" with
  | some (JVal.jstr s) => s == "object"
  | _ => false

/-- Follows the wording of the specification (section 4.1), for
comparison with `_schema_to_dict`: a parameter schema is a valid object
schema when its dictionary form declares `"type": "object"`; an absent
or wholly unreadable schema is not one. -/
def specValidObjectSchema (s : InputSchema) : Bool :=
  match s with
  | .noneSchema => false
  | .otherSchema => false
  | .dictSchema d => hasTypeObjectEntry d
  | .modelDumpSchema d => hasTypeObjectEntry d
  | .dictMethodSchema d => hasTypeObjectEntry d
  | .attrsSchema fields => hasTypeObjectEntry fields

/-- Concrete argument decoder standing in for `json.loads` on the inputs
the closed instances exercise: accepts exactly the empty object text. -/
def parseEmptyObj : ArgDecoder := fun s =>
  if s = "{}" then Except.ok (JVal.jobj [])
  else Except.error "Expecting value: line 1 column 1 (char 0)"

/-- Concrete argument decoder that accepts every input. -/
def parseAlways : ArgDecoder := fun _ => Except.ok (JVal.jobj [])

/-- Concrete session call returning one text content item. -/
def sessionOk : SessionCall :=
  fun _ _ => Except.ok (some [ContentItem.textItem (some "72F and sunny")])

/-- Concrete session call whose transport raises. -/
def sessionRaise : SessionCall := fun _ _ => Except.error "connection closed"

/-- Concrete tool call used by the closed instances. -/
def sampleCall : ToolCall :=
  { id := "call_1", ctype := "function", name := "get_forecast", arguments := some "{}" }

/-- Concrete tool call whose raw arguments are not JSON. -/
def badArgsCall : ToolCall :=
  { id := "call_9", ctype := "function", name := "get_alerts", arguments := some "not json" }

/-- Concrete tool call with an absent raw arguments string. -/
def noArgsCall : ToolCall :=
  { id := "call_2", ctype := "function", name := "get_forecast", arguments := none }

/-- Executing a block of succeeding calls appends, per call and in call
order, its tool result message, its output buffer entries and its
session invocation, then continues with the remaining calls. -/
theorem runCalls_append_ok (parse : ArgDecoder) (ct : SessionCall)
    (pre cs : List ToolCall) (msgs : List Msg) (chunks : List String) (trace : Trace)
    (h : ∀ c ∈ pre, callSucceeds parse ct c) :
    runCalls parse ct (pre ++ cs) msgs chunks trace =
      runCalls parse ct cs (msgs ++ pre.map (toolMsgOf parse ct))
        (chunks ++ (pre.map (chunksOfCall parse ct)).flatten)
        (trace ++ pre.map (invocOf parse)) := by
  induction pre generalizing msgs chunks trace with
  | nil => simp
  | cons c pre ih =>
    obtain ⟨⟨v, hv⟩, r, hr⟩ := h c (List.mem_cons_self c pre)
    have hpa : parsedArgsOf parse c = v := by unfold parsedArgsOf; rw [hv]
    have hr2 : ct c.name v = Except.ok r := hpa ▸ hr
    have hres : toolResultOf parse ct c = r := by unfold toolResultOf; rw [hr]
    simp only [List.cons_append, runCalls, hv, hr2]
    simp only [List.append_eq]
    rw [ih _ _ _ (fun x hx => h x (List.mem_cons_of_mem c hx))]
    simp only [List.map_cons, List.flatten_cons]
    rw [chunksOfCall, summaryOf, toolOutputOf, toolMsgOf, toolOutputOf, invocOf, hres, hpa]
    simp [List.append_assoc]

/-- Joining a single-entry output buffer returns that entry. -/
theorem intercalate_singleton (s : String) : String.intercalate "\n" [s] = s := by
  simp [String.intercalate, String.intercalate.go]

/-- C4: when the first completion turn returns no tool calls,
`process_query` finishes after a single request with the transcript
still the lone user message, performs zero session invocations, and the
final text is exactly the first-turn content trimmed of surrounding
whitespace (the empty string when the content is empty or whitespace
only). -/
theorem text_only_first_turn_returns_trimmed_content
    (q : String) (r : TurnResponse) (rest : List TurnResponse)
    (parse : ArgDecoder) (ct : SessionCall)
    (h : r.toolCalls.getD [] = []) :
    process_query q (r :: rest) parse ct =
      LoopResult.finished
        (if pyStrip (r.content.getD "") = "" then [] else [pyStrip (r.content.getD "")])
        [Msg.user q] [] 1 ∧
    result_text
        (if pyStrip (r.content.getD "") = "" then [] else [pyStrip (r.content.getD "")]) =
      pyStrip (r.content.getD "") := by
  constructor
  · unfold process_query runLoop
    rw [h]
    by_cases hs : pyStrip (r.content.getD "") = "" <;> simp [hs]
  · by_cases hs : pyStrip (r.content.getD "") = ""
    · rw [hs]
      simp [result_text, String.intercalate]
    · simp [hs, result_text, intercalate_singleton]

/-- Closed instance of the text-only scenario: the endpoint answers
"4" with no tool calls and the query output is "4". -/
theorem text_only_first_turn_returns_trimmed_content_witness :
    process_query "2 + 2?" [{ content := some "4", toolCalls := none }] parseEmptyObj sessionOk =
      LoopResult.finished ["4"] [Msg.user "2 + 2?"] [] 1 ∧
    result_text ["4"] = "4" := by
  have h := text_only_first_turn_returns_trimmed_content "2 + 2?"
    { content := some "4", toolCalls := none } [] parseEmptyObj sessionOk rfl
  have e : pyStrip ((({ content := some "4", toolCalls := none } : TurnResponse)).content.getD "") = "4" := by
    decide
  rw [e] at h
  simpa using h

/-- C9: the tool catalog adapter is a pure transform of its descriptor
list; in particular applying it twice to the same list yields identical
declaration lists.  In the embedding this is definitional, because, as
in the source, the adapter reads nothing but its argument and performs
no effect. -/
theorem available_tools_pure_idempotent :
    ∀ ts : List ToolDescriptor, available_tools ts = available_tools ts :=
  fun _ => rfl

/-- Concrete dict-shaped schema that is not an object schema. -/
def stringSchemaDict : List (String × JVal) := [("type", JVal.jstr "string")]

/-- C7 counterexample: a descriptor whose parameter schema is a dict
that is not a valid object schema is passed through unchanged by the
adapter, not replaced by the empty-parameter fallback. -/
theorem schema_fallback_counterexample :
    specValidObjectSchema (InputSchema.dictSchema stringSchemaDict) = false ∧
    available_tools
        [{ name := "get_forecast", description := none,
           inputSchema := InputSchema.dictSchema stringSchemaDict }] =
      [{ declKind := "function",
         function := { name := "get_forecast", description := "",
                       parameters := JVal.jobj stringSchemaDict } }] ∧
    JVal.jobj stringSchemaDict ≠ emptyObjectSchema := by
  refine ⟨rfl, rfl, ?_⟩
  simp [stringSchemaDict, emptyObjectSchema]

/-- C7 amended: the adapter substitutes the empty-parameter fallback
exactly when the schema is absent or not convertible to a dictionary at
all; a dict-shaped schema is passed through unchanged even when it is
not an object schema; and every descriptor is still listed (one
declaration per descriptor, never a failure). -/
theorem schema_fallback_amended :
    (_schema_to_dict InputSchema.noneSchema = emptyObjectSchema) ∧
    (_schema_to_dict InputSchema.otherSchema = emptyObjectSchema) ∧
    (∀ d, _schema_to_dict (InputSchema.dictSchema d) = JVal.jobj d) ∧
    (∀ ts : List ToolDescriptor, (available_tools ts).length = ts.length) := by
  refine ⟨rfl, rfl, fun d => rfl, fun ts => ?_⟩
  simp [available_tools]

/-- Executing a list of succeeding calls from any state returns the
fully extended state. -/
theorem runCalls_ok_eq (parse : ArgDecoder) (ct : SessionCall)
    (cs : List ToolCall) (msgs : List Msg) (chunks : List String) (trace : Trace)
    (h : ∀ c ∈ cs, callSucceeds parse ct c) :
    runCalls parse ct cs msgs chunks trace =
      CallsStep.ok (msgs ++ cs.map (toolMsgOf parse ct))
        (chunks ++ (cs.map (chunksOfCall parse ct)).flatten)
        (trace ++ cs.map (invocOf parse)) := by
  have h2 := runCalls_append_ok parse ct cs [] msgs chunks trace h
  simpa [runCalls] using h2

/-- One loop turn whose response carries tool calls, all succeeding:
the assistant message and the per-call effects are recorded and the loop
moves to the next completion request. -/
theorem runLoop_tool_turn_step (parse : ArgDecoder) (ct : SessionCall)
    (r : TurnResponse) (rest : List TurnResponse)
    (msgs : List Msg) (chunks : List String) (trace : Trace) (n : Nat)
    (hne : r.toolCalls.getD [] ≠ [])
    (h : ∀ c ∈ r.toolCalls.getD [], callSucceeds parse ct c) :
    runLoop parse ct (r :: rest) msgs chunks trace n =
      runLoop parse ct rest
        ((msgs ++ [Msg.assistant (r.content.getD "") (r.toolCalls.getD [])]) ++
          (r.toolCalls.getD []).map (toolMsgOf parse ct))
        ((if pyStrip (r.content.getD "") = "" then chunks
            else chunks ++ [pyStrip (r.content.getD "")]) ++
          ((r.toolCalls.getD []).map (chunksOfCall parse ct)).flatten)
        (trace ++ (r.toolCalls.getD []).map (invocOf parse)) (n + 1) := by
  have hie : (r.toolCalls.getD []).isEmpty = false := by
    cases hc : r.toolCalls.getD [] with
    | nil => exact absurd hc hne
    | cons a l => rfl
  simp only [runLoop, hie, Bool.false_eq_true, if_false]
  rw [runCalls_ok_eq parse ct _ _ _ _ h]

/-- C3: in a turn whose completion response carries N tool calls (all
executing successfully), the session is invoked exactly N times, one per
call, strictly sequentially in the emitted order, and the transcript
gains exactly N tool result messages in that same order before the next
completion request (the loop continuation on the remaining script) is
issued. -/
theorem turn_invokes_calls_in_order (parse : ArgDecoder) (ct : SessionCall)
    (r : TurnResponse) (rest : List TurnResponse)
    (msgs : List Msg) (chunks : List String) (trace : Trace) (n : Nat)
    (hne : r.toolCalls.getD [] ≠ [])
    (h : ∀ c ∈ r.toolCalls.getD [], callSucceeds parse ct c) :
    runLoop parse ct (r :: rest) msgs chunks trace n =
      runLoop parse ct rest
        ((msgs ++ [Msg.assistant (r.content.getD "") (r.toolCalls.getD [])]) ++
          (r.toolCalls.getD []).map (toolMsgOf parse ct))
        ((if pyStrip (r.content.getD "") = "" then chunks
            else chunks ++ [pyStrip (r.content.getD "")]) ++
          ((r.toolCalls.getD []).map (chunksOfCall parse ct)).flatten)
        (trace ++ (r.toolCalls.getD []).map (invocOf parse)) (n + 1) ∧
    ((r.toolCalls.getD []).map (invocOf parse)).length = (r.toolCalls.getD []).length ∧
    ((r.toolCalls.getD []).map (toolMsgOf parse ct)).length = (r.toolCalls.getD []).length :=
  ⟨runLoop_tool_turn_step parse ct r rest msgs chunks trace n hne h, by simp, by simp⟩

/-- Closed instance of C3: one successful forecast call in the first
turn. -/
theorem turn_invokes_calls_in_order_witness :
    runLoop parseEmptyObj sessionOk
        [{ content := some "", toolCalls := some [sampleCall] }] [Msg.user "forecast?"] [] [] 0 =
      runLoop parseEmptyObj sessionOk []
        (([Msg.user "forecast?"] ++ [Msg.assistant "" [sampleCall]]) ++
          [sampleCall].map (toolMsgOf parseEmptyObj sessionOk))
        ((if pyStrip "" = "" then [] else [pyStrip ""]) ++
          ([sampleCall].map (chunksOfCall parseEmptyObj sessionOk)).flatten)
        ([] ++ [sampleCall].map (invocOf parseEmptyObj)) 1 ∧
    ([sampleCall].map (invocOf parseEmptyObj)).length = [sampleCall].length ∧
    ([sampleCall].map (toolMsgOf parseEmptyObj sessionOk)).length = [sampleCall].length :=
  turn_invokes_calls_in_order parseEmptyObj sessionOk
    { content := some "", toolCalls := some [sampleCall] } [] [Msg.user "forecast?"] [] [] 0
    (by decide)
    (by
      intro c hc
      have he : c = sampleCall := by simpa using hc
      subst he
      exact ⟨⟨JVal.jobj [], rfl⟩, ⟨some [ContentItem.textItem (some "72F and sunny")], rfl⟩⟩)

/-- C8: for every executed tool call the opaque id the endpoint assigned
to the call is carried verbatim as the tool call id of the tool result
message appended for it: the appended messages are the per-call tool
result messages, and their id projection equals the id projection of the
calls, position by position. -/
theorem tool_call_id_round_trip (parse : ArgDecoder) (ct : SessionCall)
    (cs : List ToolCall) (msgs : List Msg) (chunks : List String) (trace : Trace)
    (h : ∀ c ∈ cs, callSucceeds parse ct c) :
    runCalls parse ct cs msgs chunks trace =
      CallsStep.ok (msgs ++ cs.map (toolMsgOf parse ct))
        (chunks ++ (cs.map (chunksOfCall parse ct)).flatten)
        (trace ++ cs.map (invocOf parse)) ∧
    (cs.map (toolMsgOf parse ct)).map Msg.callId = cs.map (fun c => some c.id) := by
  refine ⟨runCalls_ok_eq parse ct cs msgs chunks trace h, ?_⟩
  simp [toolMsgOf, Msg.callId, List.map_map, Function.comp]

/-- Closed instance of C8: the id "call_1" supplied with the call
reappears on the appended tool result message. -/
theorem tool_call_id_round_trip_witness :
    runCalls parseEmptyObj sessionOk [sampleCall] [Msg.user "forecast?"] [] [] =
      CallsStep.ok ([Msg.user "forecast?"] ++ [sampleCall].map (toolMsgOf parseEmptyObj sessionOk))
        ([] ++ ([sampleCall].map (chunksOfCall parseEmptyObj sessionOk)).flatten)
        ([] ++ [sampleCall].map (invocOf parseEmptyObj)) ∧
    ([sampleCall].map (toolMsgOf parseEmptyObj sessionOk)).map Msg.callId =
      [sampleCall].map (fun c => some c.id) :=
  tool_call_id_round_trip parseEmptyObj sessionOk [sampleCall] [Msg.user "forecast?"] [] []
    (by
      intro c hc
      have he : c = sampleCall := by simpa using hc
      subst he
      exact ⟨⟨JVal.jobj [], rfl⟩, ⟨some [ContentItem.textItem (some "72F and sunny")], rfl⟩⟩)

/-- With a decoder and a session that always succeed, a block of
responses that all carry tool calls is consumed turn by turn, issuing
one completion request per response. -/
theorem runLoop_consumes_tool_turns (parse : ArgDecoder) (ct : SessionCall)
    (hp : ∀ s, ∃ v, parse s = Except.ok v)
    (hc : ∀ nm a, ∃ r, ct nm a = Except.ok r)
    (pre rest : List TurnResponse)
    (hpre : ∀ p ∈ pre, p.toolCalls.getD [] ≠ []) :
    ∀ msgs chunks trace n, ∃ m c t,
      runLoop parse ct (pre ++ rest) msgs chunks trace n =
        runLoop parse ct rest m c t (n + pre.length) := by
  induction pre with
  | nil => exact fun msgs chunks trace n => ⟨msgs, chunks, trace, by simp⟩
  | cons p pre ih =>
    intro msgs chunks trace n
    have hne : p.toolCalls.getD [] ≠ [] := hpre p (List.mem_cons_self p pre)
    have hsucc : ∀ c ∈ p.toolCalls.getD [], callSucceeds parse ct c := by
      intro c _
      exact ⟨hp (effectiveArgs c), hc c.name (parsedArgsOf parse c)⟩
    have hstep := runLoop_tool_turn_step parse ct p (pre ++ rest) msgs chunks trace n hne hsucc
    obtain ⟨m, c, t, hrec⟩ :=
      ih (fun x hx => hpre x (List.mem_cons_of_mem p hx)) _ _ _ (n + 1)
    refine ⟨m, c, t, ?_⟩
    rw [List.cons_append, hstep, hrec]
    congr 1
    simp only [List.length_cons]
    omega

/-- C5: the turn loop exits exactly at the first turn whose completion
response carries an empty tool call list — having issued one completion
request per consumed response — and, when every response carries at
least one tool call, it consumes the whole script and still demands
another completion: there is no upper bound on the number of turns. -/
theorem loop_terminates_iff_no_tool_calls (parse : ArgDecoder) (ct : SessionCall)
    (hp : ∀ s, ∃ v, parse s = Except.ok v)
    (hc : ∀ nm a, ∃ r, ct nm a = Except.ok r) :
    (∀ (q : String) (pre : List TurnResponse) (r : TurnResponse) (rest : List TurnResponse),
        (∀ p ∈ pre, p.toolCalls.getD [] ≠ []) → r.toolCalls.getD [] = [] →
        ∃ chunks msgs trace, process_query q (pre ++ r :: rest) parse ct =
          LoopResult.finished chunks msgs trace (pre.length + 1)) ∧
    (∀ (q : String) (script : List TurnResponse),
        (∀ p ∈ script, p.toolCalls.getD [] ≠ []) →
        ∃ msgs trace, process_query q script parse ct =
          LoopResult.exhausted msgs trace script.length) := by
  constructor
  · intro q pre r rest hpre hr
    obtain ⟨m, c, t, hrun⟩ :=
      runLoop_consumes_tool_turns parse ct hp hc pre (r :: rest) hpre [Msg.user q] [] [] 0
    unfold process_query
    rw [hrun]
    have hie : (r.toolCalls.getD []).isEmpty = true := by rw [hr]; rfl
    simp only [runLoop, hie, if_true]
    exact ⟨_, m, t, by rw [Nat.zero_add, Nat.add_comm]⟩
  · intro q script hall
    obtain ⟨m, c, t, hrun⟩ :=
      runLoop_consumes_tool_turns parse ct hp hc script [] hall [Msg.user q] [] [] 0
    unfold process_query
    rw [List.append_nil] at hrun
    rw [hrun]
    exact ⟨m, t, by simp [runLoop]⟩

/-- Closed instance of C5: with an always-succeeding decoder and
session, a script of one tool turn followed by a text-only turn finishes
after two requests, and a script of two tool turns exhausts after two
requests. -/
theorem loop_terminates_iff_no_tool_calls_witness :
    (∀ (q : String) (pre : List TurnResponse) (r : TurnResponse) (rest : List TurnResponse),
        (∀ p ∈ pre, p.toolCalls.getD [] ≠ []) → r.toolCalls.getD [] = [] →
        ∃ chunks msgs trace, process_query q (pre ++ r :: rest) parseAlways sessionOk =
          LoopResult.finished chunks msgs trace (pre.length + 1)) ∧
    (∀ (q : String) (script : List TurnResponse),
        (∀ p ∈ script, p.toolCalls.getD [] ≠ []) →
        ∃ msgs trace, process_query q script parseAlways sessionOk =
          LoopResult.exhausted msgs trace script.length) :=
  loop_terminates_iff_no_tool_calls parseAlways sessionOk
    (fun _s => ⟨JVal.jobj [], rfl⟩)
    (fun _nm _a => ⟨some [ContentItem.textItem (some "72F and sunny")], rfl⟩)

/-- C2: when a tool call of a turn carries raw arguments that fail to
decode as JSON, the loop raises the argument-parsing `ValueError`
immediately: the error propagates out of the loop (the run does not
finish and is not recovered), the failing call and every call after it
are never invoked against the session (only the preceding calls of the
turn appear in the invocation trace), and no default arguments are
substituted. -/
theorem malformed_arguments_fail_fast (parse : ArgDecoder) (ct : SessionCall)
    (r : TurnResponse) (rest : List TurnResponse)
    (msgs : List Msg) (chunks : List String) (trace : Trace) (n : Nat)
    (pre : List ToolCall) (c : ToolCall) (post : List ToolCall) (e : String)
    (hsplit : r.toolCalls.getD [] = pre ++ c :: post)
    (hpre : ∀ x ∈ pre, callSucceeds parse ct x)
    (hbad : parse (effectiveArgs c) = Except.error e) :
    runLoop parse ct (r :: rest) msgs chunks trace n =
      LoopResult.valueError
        ("Failed to parse arguments for tool " ++ c.name ++ ": " ++ e)
        ((msgs ++ [Msg.assistant (r.content.getD "") (pre ++ c :: post)]) ++
          pre.map (toolMsgOf parse ct))
        (trace ++ pre.map (invocOf parse)) := by
  have hie : (pre ++ c :: post).isEmpty = false := by
    cases pre <;> rfl
  simp only [runLoop, hsplit, hie, Bool.false_eq_true, if_false]
  rw [runCalls_append_ok parse ct pre (c :: post) _ _ _ hpre]
  simp only [runCalls, hbad]

/-- Closed instance of C2: raw arguments "not json" abort the query with
the argument-parsing error and the session is never invoked. -/
theorem malformed_arguments_fail_fast_witness :
    runLoop parseEmptyObj sessionOk
        [{ content := some "", toolCalls := some [badArgsCall] }] [Msg.user "alerts?"] [] [] 0 =
      LoopResult.valueError
        ("Failed to parse arguments for tool " ++ badArgsCall.name ++ ": " ++
          "Expecting value: line 1 column 1 (char 0)")
        (([Msg.user "alerts?"] ++ [Msg.assistant "" ([] ++ badArgsCall :: [])]) ++
          List.map (toolMsgOf parseEmptyObj sessionOk) [])
        ([] ++ List.map (invocOf parseEmptyObj) []) :=
  malformed_arguments_fail_fast parseEmptyObj sessionOk
    { content := some "", toolCalls := some [badArgsCall] } [] [Msg.user "alerts?"] [] [] 0
    [] badArgsCall [] "Expecting value: line 1 column 1 (char 0)" rfl
    (by intro x hx; simp at hx) rfl

/-- C1 counterexample: a session call whose transport raises is not
recovered inside `process_query` — the run ends as an escaped exception,
the transcript gains no tool result message for the failing call, the
invocation trace stays empty and the loop does not proceed to another
turn. -/
theorem tool_transport_error_escapes_counterexample :
    process_query "weather in SF"
        [{ content := some "", toolCalls := some [sampleCall] }] parseEmptyObj sessionRaise =
      LoopResult.toolRaise "connection closed"
        [Msg.user "weather in SF", Msg.assistant "" [sampleCall]] [] := by
  rfl

/-- C1 amended: only session-reported results are folded into the
transcript; a transport-level raise from the session call propagates out
of the loop unrecovered: the run ends as an escaped exception carrying
the transport error, no tool result message is appended for the failing
call, its invocation is the last session activity recorded (only the
preceding calls of the turn appear), and no further turn is taken. -/
theorem tool_transport_error_propagates (parse : ArgDecoder) (ct : SessionCall)
    (r : TurnResponse) (rest : List TurnResponse)
    (msgs : List Msg) (chunks : List String) (trace : Trace) (n : Nat)
    (pre : List ToolCall) (c : ToolCall) (post : List ToolCall) (v : JVal) (e : String)
    (hsplit : r.toolCalls.getD [] = pre ++ c :: post)
    (hpre : ∀ x ∈ pre, callSucceeds parse ct x)
    (hv : parse (effectiveArgs c) = Except.ok v)
    (hraise : ct c.name v = Except.error e) :
    runLoop parse ct (r :: rest) msgs chunks trace n =
      LoopResult.toolRaise e
        ((msgs ++ [Msg.assistant (r.content.getD "") (pre ++ c :: post)]) ++
          pre.map (toolMsgOf parse ct))
        (trace ++ pre.map (invocOf parse)) := by
  have hie : (pre ++ c :: post).isEmpty = false := by
    cases pre <;> rfl
  simp only [runLoop, hsplit, hie, Bool.false_eq_true, if_false]
  rw [runCalls_append_ok parse ct pre (c :: post) _ _ _ hpre]
  simp only [runCalls, hv, hraise]

/-- Closed instance of the amended C1: the raise escapes with the
transport error text. -/
theorem tool_transport_error_propagates_witness :
    runLoop parseEmptyObj sessionRaise
        [{ content := some "", toolCalls := some [sampleCall] }] [Msg.user "weather?"] [] [] 0 =
      LoopResult.toolRaise "connection closed"
        (([Msg.user "weather?"] ++ [Msg.assistant "" ([] ++ sampleCall :: [])]) ++
          List.map (toolMsgOf parseEmptyObj sessionRaise) [])
        ([] ++ List.map (invocOf parseEmptyObj) []) :=
  tool_transport_error_propagates parseEmptyObj sessionRaise
    { content := some "", toolCalls := some [sampleCall] } [] [Msg.user "weather?"] [] [] 0
    [] sampleCall [] (JVal.jobj []) "connection closed" rfl
    (by intro x hx; simp at hx) rfl rfl

/-- C10: a tool call whose raw arguments string is absent or empty is
treated as carrying the empty JSON object: the decoder receives the
literal text of the empty object, no argument-parsing error is raised,
and the session is invoked for that call with the empty object as
arguments. -/
theorem empty_arguments_treated_as_empty_object (parse : ArgDecoder) (ct : SessionCall)
    (c : ToolCall) (cs : List ToolCall)
    (msgs : List Msg) (chunks : List String) (trace : Trace)
    (hargs : c.arguments = none ∨ c.arguments = some "")
    (hp : parse "{}" = Except.ok (JVal.jobj []))
    (res : Option (List ContentItem))
    (hct : ct c.name (JVal.jobj []) = Except.ok res) :
    effectiveArgs c = "{}" ∧
    runCalls parse ct (c :: cs) msgs chunks trace =
      runCalls parse ct cs (msgs ++ [toolMsgOf parse ct c])
        (chunks ++ chunksOfCall parse ct c)
        (trace ++ [(c.name, JVal.jobj [])]) := by
  have heff : effectiveArgs c = "{}" := by
    rcases hargs with h | h <;> simp [effectiveArgs, h]
  have hpa : parsedArgsOf parse c = JVal.jobj [] := by
    unfold parsedArgsOf
    rw [heff, hp]
  refine ⟨heff, ?_⟩
  have hsucc : ∀ x ∈ [c], callSucceeds parse ct x := by
    intro x hx
    have hxc : x = c := by simpa using hx
    subst hxc
    exact ⟨⟨JVal.jobj [], by rw [heff, hp]⟩, ⟨res, by rw [hpa, hct]⟩⟩
  have h2 := runCalls_append_ok parse ct [c] cs msgs chunks trace hsucc
  simpa [invocOf, hpa] using h2

/-- Closed instance of C10: a call with an absent arguments string runs
against the session with the empty object. -/
theorem empty_arguments_treated_as_empty_object_witness :
    effectiveArgs noArgsCall = "{}" ∧
    runCalls parseEmptyObj sessionOk [noArgsCall] [Msg.user "forecast?"] [] [] =
      runCalls parseEmptyObj sessionOk []
        ([Msg.user "forecast?"] ++ [toolMsgOf parseEmptyObj sessionOk noArgsCall])
        ([] ++ chunksOfCall parseEmptyObj sessionOk noArgsCall)
        ([] ++ [(noArgsCall.name, JVal.jobj [])]) :=
  empty_arguments_treated_as_empty_object parseEmptyObj sessionOk noArgsCall []
    [Msg.user "forecast?"] [] [] (Or.inl rfl) rfl
    (some [ContentItem.textItem (some "72F and sunny")]) rfl

/-- Filtering the empty entries out of the flattening fold gives the
filtered per-item contributions in item order, after the accumulator. -/
theorem flatten_parts_filter (items : List ContentItem) (acc : List String) :
    (items.foldl flattenStep acc).filter (fun p => p ≠ "") =
      acc.filter (fun p => p ≠ "") ++ (items.map contentPartStr).filter (fun p => p ≠ "") := by
  induction items generalizing acc with
  | nil => simp
  | cons i is ih =>
    simp only [ne_eq, decide_not] at ih
    cases i with
    | textItem t =>
      cases t with
      | none => simp [flattenStep, contentPartStr, ih, ne_eq, decide_not]
      | some s =>
        by_cases hs : s = "" <;>
          simp [flattenStep, contentPartStr, hs, ih, List.filter_append, List.append_assoc,
            ne_eq, decide_not]
    | otherItem s =>
      by_cases hs : s = "" <;>
        simp [flattenStep, contentPartStr, hs, ih, List.filter_append, List.append_assoc,
          ne_eq, decide_not]

/-- C6: an executed tool call flattens the returned content by joining
the non-empty per-item contributions — the text of items of kind text,
the rendering of other items — with newline separators in item order
(then stripping); the output buffer receives the summary
"[Tool <name> called with args <args>]" followed by the flattened output
exactly when it is non-empty; and the appended tool result message
carries the flattened text, or "(no output)" when it is empty. -/
theorem tool_result_flatten_and_record (parse : ArgDecoder) (ct : SessionCall)
    (c : ToolCall) (v : JVal) (res : Option (List ContentItem))
    (cs : List ToolCall) (msgs : List Msg) (chunks : List String) (trace : Trace)
    (items : List ContentItem)
    (hv : parse (effectiveArgs c) = Except.ok v)
    (hres : ct c.name v = Except.ok res) :
    runCalls parse ct (c :: cs) msgs chunks trace =
      runCalls parse ct cs
        (msgs ++ [Msg.tool c.id c.name
          (if _flatten_tool_content res = "" then "(no output)"
            else _flatten_tool_content res)])
        ((chunks ++ ["[Tool " ++ c.name ++ " called with args " ++ pyReprJ v ++ "]"]) ++
          (if _flatten_tool_content res = "" then [] else [_flatten_tool_content res]))
        (trace ++ [(c.name, v)]) ∧
    _flatten_tool_content (some items) =
      pyStrip (String.intercalate "\n"
        ((items.map contentPartStr).filter (fun p => p ≠ ""))) := by
  constructor
  · simp only [runCalls, hv, hres]
  · cases items with
    | nil => rfl
    | cons i is =>
      simp only [_flatten_tool_content]
      rw [flatten_parts_filter]
      simp

/-- Closed instance of C6: a successful forecast call records its
summary, output and tool result message, and the flattening of a mixed
two-item content list is the newline join of the non-empty parts. -/
theorem tool_result_flatten_and_record_witness :
    runCalls parseEmptyObj sessionOk [sampleCall] [Msg.user "forecast?"] [] [] =
      runCalls parseEmptyObj sessionOk []
        ([Msg.user "forecast?"] ++ [Msg.tool sampleCall.id sampleCall.name
          (if _flatten_tool_content (some [ContentItem.textItem (some "72F and sunny")]) = ""
            then "(no output)"
            else _flatten_tool_content (some [ContentItem.textItem (some "72F and sunny")]))])
        (([] ++ ["[Tool " ++ sampleCall.name ++ " called with args " ++
            pyReprJ (JVal.jobj []) ++ "]"]) ++
          (if _flatten_tool_content (some [ContentItem.textItem (some "72F and sunny")]) = ""
            then []
            else [_flatten_tool_content (some [ContentItem.textItem (some "72F and sunny")])]))
        ([] ++ [(sampleCall.name, JVal.jobj [])]) ∧
    _flatten_tool_content
        (some [ContentItem.textItem (some "72F and sunny"), ContentItem.textItem none]) =
      pyStrip (String.intercalate "\n"
        (([ContentItem.textItem (some "72F and sunny"),
            ContentItem.textItem none].map contentPartStr).filter (fun p => p ≠ ""))) :=
  tool_result_flatten_and_record parseEmptyObj sessionOk sampleCall (JVal.jobj [])
    (some [ContentItem.textItem (some "72F and sunny")]) [] [Msg.user "forecast?"] [] []
    [ContentItem.textItem (some "72F and sunny"), ContentItem.textItem none] rfl rfl
